import Mathlib

/-!
Verification development for the Smart Assignment Analysis System.

The definitions below are a shallow embedding of the Python sources:
  src/analysis/clustering.py, src/analysis/insights.py, src/app.py,
  src/feedback/explainability.py.
Python floats are modelled as exact rationals/reals, Python ints as ℕ/ℤ,
dicts (which preserve insertion order) as association lists whose key
order is first-occurrence order, and the sklearn calls by faithful
mathematical definitions (TF-IDF with smoothed idf, cosine similarity)
or, for the KMeans optimizer itself, by an abstract label oracle that is
constrained only by interface properties every KMeans run satisfies.
-/

/-! ## Text utilities (str.split, sklearn tokenization) -/

/-- Maximal runs of characters satisfying `keep`; `acc` is the current run,
reversed.  This models splitting a string into words. -/
def runsAux (keep : Char → Bool) : List Char → List Char → List (List Char)
  | [], acc => if acc.isEmpty then [] else [acc.reverse]
  | c :: cs, acc =>
    if keep c then runsAux keep cs (c :: acc)
    else if acc.isEmpty then runsAux keep cs []
    else acc.reverse :: runsAux keep cs []

/-- Maximal non-empty runs of characters satisfying `keep`. -/
def splitRuns (keep : Char → Bool) (s : List Char) : List (List Char) :=
  runsAux keep s []

/-- Python `str.split()`: split on whitespace runs, discarding empty pieces. -/
def pyWords (s : String) : List String :=
  (splitRuns (fun c => !c.isWhitespace) s.toList).map (fun cs => String.mk cs)

/-- A word character, as in the regex class `\w` used by sklearn's default
`token_pattern` (ASCII approximation; all inputs considered here are ASCII). -/
def isWordChar (c : Char) : Bool := c.isAlphanum || c = '_'

/-- sklearn `ENGLISH_STOP_WORDS` (the frozen Glasgow IR stop-word list used by
`TfidfVectorizer(stop_words="english")`). -/
def english_stop_words : List String :=
  ["a", "about", "above", "across", "after", "afterwards", "again", "against",
   "all", "almost", "alone", "along", "already", "also", "although", "always",
   "am", "among", "amongst", "amoungst", "amount", "an", "and", "another",
   "any", "anyhow", "anyone", "anything", "anyway", "anywhere", "are",
   "around", "as", "at", "back", "be", "became", "because", "become",
   "becomes", "becoming", "been", "before", "beforehand", "behind", "being",
   "below", "beside", "besides", "between", "beyond", "bill", "both",
   "bottom", "but", "by", "call", "can", "cannot", "cant", "co", "con",
   "could", "couldnt", "cry", "de", "describe", "detail", "do", "done",
   "down", "due", "during", "each", "eg", "eight", "either", "eleven",
   "else", "elsewhere", "empty", "enough", "etc", "even", "ever", "every",
   "everyone", "everything", "everywhere", "except", "few", "fifteen",
   "fifty", "fill", "find", "fire", "first", "five", "for", "former",
   "formerly", "forty", "found", "four", "from", "front", "full", "further",
   "get", "give", "go", "had", "has", "hasnt", "have", "he", "hence", "her",
   "here", "hereafter", "hereby", "herein", "hereupon", "hers", "herself",
   "him", "himself", "his", "how", "however", "hundred", "i", "ie", "if",
   "in", "inc", "indeed", "interest", "into", "is", "it", "its", "itself",
   "keep", "last", "latter", "latterly", "least", "less", "ltd", "made",
   "many", "may", "me", "meanwhile", "might", "mill", "mine", "more",
   "moreover", "most", "mostly", "move", "much", "must", "my", "myself",
   "name", "namely", "neither", "never", "nevertheless", "next", "nine",
   "no", "nobody", "none", "noone", "nor", "not", "nothing", "now",
   "nowhere", "of", "off", "often", "on", "once", "one", "only", "onto",
   "or", "other", "others", "otherwise", "our", "ours", "ourselves", "out",
   "over", "own", "part", "per", "perhaps", "please", "put", "rather", "re",
   "same", "see", "seem", "seemed", "seeming", "seems", "serious", "several",
   "she", "should", "show", "side", "since", "sincere", "six", "sixty", "so",
   "some", "somehow", "someone", "something", "sometime", "sometimes",
   "somewhere", "still", "such", "system", "take", "ten", "than", "that",
   "the", "their", "them", "themselves", "then", "thence", "there",
   "thereafter", "thereby", "therefore", "therein", "thereupon", "these",
   "they", "thick", "thin", "third", "this", "those", "though", "three",
   "through", "throughout", "thru", "thus", "to", "together", "too", "top",
   "toward", "towards", "twelve", "twenty", "two", "un", "under", "until",
   "up", "upon", "us", "very", "via", "was", "we", "well", "were", "what",
   "whatever", "when", "whence", "whenever", "where", "whereafter",
   "whereas", "whereby", "wherein", "whereupon", "wherever", "whether",
   "which", "while", "whither", "who", "whoever", "whole", "whom", "whose",
   "why", "will", "with", "within", "without", "would", "yet", "you",
   "your", "yours", "yourself", "yourselves"]

/-- sklearn tokenization: lowercase, then take maximal runs of word
characters of length at least 2 (`token_pattern` default).  Lowercasing
is done character-wise on the character list (what `str.lower` does on
the ASCII inputs considered here). -/
def rawTokens (s : String) : List String :=
  ((splitRuns isWordChar (s.toList.map Char.toLower)).filter
    (fun w => 2 ≤ w.length)).map (fun cs => String.mk cs)

/-- Tokens of a document that enter the TF-IDF vocabulary: raw tokens that
are not stop words. -/
def termTokens (s : String) : List String :=
  (rawTokens s).filter (fun t => ¬ english_stop_words.contains t)

/-- The vocabulary built by `TfidfVectorizer.fit` over a document list: all
distinct non-stop-word tokens.  (sklearn sorts it alphabetically; the order
of the coordinates is irrelevant to every property proved here.)
`fit_transform` raises `ValueError` exactly when this list is empty. -/
def vocab (answers : List String) : List String :=
  (answers.flatMap termTokens).dedup

/-! ## Rounding (Python `round`, banker's rounding, exact arithmetic) -/

/-- Round to the nearest integer, ties to the even integer: the semantics
of Python's `round` on exact values. -/
def rheInt {α : Type} [LinearOrderedField α] [FloorRing α] (x : α) : ℤ :=
  if Int.fract x < 1/2 then ⌊x⌋
  else if (1 : α)/2 < Int.fract x then ⌊x⌋ + 1
  else if ⌊x⌋ % 2 = 0 then ⌊x⌋ else ⌊x⌋ + 1

/-- Python `round(x, 1)` on exact values. -/
def round1 {α : Type} [LinearOrderedField α] [FloorRing α] (x : α) : α :=
  (rheInt (10 * x) : α) / 10

/-- Python `round(x, 2)` on exact values. -/
def round2 {α : Type} [LinearOrderedField α] [FloorRing α] (x : α) : α :=
  (rheInt (100 * x) : α) / 100

/-! ## clustering.py: `detect_weak_concepts` -/

/-- The weak-understanding signals returned by
`clustering.detect_weak_concepts` (a dict with keys `short_answers` and
`low_vocab_diversity`). -/
structure WeakSignals where
  short_answers : ℕ
  low_vocab_diversity : Bool
deriving DecidableEq, Repr

/-- `clustering.detect_weak_concepts`: counts answers of at most 4
whitespace-separated words and flags low vocabulary diversity when the
distinct-word ratio of the concatenation is below 0.4. -/
def detect_weak_concepts (answers : List String) : WeakSignals :=
  let short_answers := (answers.filter (fun a => (pyWords a).length ≤ 4)).length
  let all_words := pyWords (String.intercalate " " answers)
  let unique_ratio : ℚ := (all_words.dedup.length : ℚ) / (max all_words.length 1 : ℕ)
  ⟨short_answers, decide (unique_ratio < (0.4 : ℚ))⟩

/-! ## TF-IDF weights and cosine similarity (sklearn defaults:
`smooth_idf=True`, `sublinear_tf=False`, `norm="l2"`).
`cosine_similarity` on l2-normalised rows equals the normalised dot
product below (a zero row stays zero in both, via the `x / 0 = 0`
convention matching sklearn's zero-safe normalisation). -/

/-- Raw term frequency of term `t` in document `d`. -/
def tfCount (d t : String) : ℕ := (termTokens d).count t

/-- Document frequency of term `t` in the corpus. -/
def dfCount (answers : List String) (t : String) : ℕ :=
  (answers.filter (fun d => (termTokens d).contains t)).length

/-- Smoothed inverse document frequency: `ln((1 + n)/(1 + df)) + 1`. -/
noncomputable def idf (answers : List String) (t : String) : ℝ :=
  Real.log ((1 + (answers.length : ℝ)) / (1 + (dfCount answers t : ℝ))) + 1

/-- Unnormalised TF-IDF weight of term `t` in document `d`. -/
noncomputable def tfidfWeight (answers : List String) (d t : String) : ℝ :=
  (tfCount d t : ℝ) * idf answers t

/-- The TF-IDF row of document `d` (the matrix row KMeans receives; the
common scaling by row norms does not affect which rows are equal). -/
noncomputable def tfidfRow (answers : List String) (d : String) : List ℝ :=
  (vocab answers).map (tfidfWeight answers d)

/-- Inner product of the TF-IDF rows of documents `d` and `e`. -/
noncomputable def dotW (answers : List String) (d e : String) : ℝ :=
  ∑ t ∈ (vocab answers).toFinset, tfidfWeight answers d t * tfidfWeight answers e t

/-- Cosine similarity between the TF-IDF rows of `d` and `e`. -/
noncomputable def cosSim (answers : List String) (d e : String) : ℝ :=
  dotW answers d e / (Real.sqrt (dotW answers d d) * Real.sqrt (dotW answers e e))

/-- Mean of the full pairwise cosine-similarity matrix, diagonal included:
`similarity_matrix.mean()` in `insights.analyze_grouped_answers`. -/
noncomputable def meanSim (answers : List String) : ℝ :=
  ((answers.map (fun d => (answers.map (fun e => cosSim answers d e)).sum)).sum) /
    ((answers.length : ℝ) * (answers.length : ℝ))

/-! ## clustering.py: `split_into_groups`, `cluster_answers` -/

/-- `clustering.split_into_groups`: singleton clusters when the list is
short, otherwise `max_groups` contiguous positional chunks (remainder
appended to the last chunk), dropping empty chunks. -/
def split_into_groups (answers : List String) (max_groups : ℕ) : List (List String) :=
  if answers.length ≤ max_groups then answers.map (fun a => [a])
  else
    ((List.range max_groups).map (fun i =>
        if i = max_groups - 1 then answers.drop (i * (answers.length / max_groups))
        else (answers.drop (i * (answers.length / max_groups))).take
          (answers.length / max_groups))).filter (fun g => !g.isEmpty)

/-- Helper for `firstDedup`: keeps elements not yet seen, in order. -/
def firstDedupAux {α : Type} [DecidableEq α] : List α → List α → List α
  | [], _ => []
  | a :: l, seen =>
    if a ∈ seen then firstDedupAux l seen else a :: firstDedupAux l (a :: seen)

/-- First-occurrence deduplication: the key order of a Python dict built by
inserting keys in list order. -/
def firstDedup {α : Type} [DecidableEq α] (l : List α) : List α :=
  firstDedupAux l []

/-- The cluster-building loop of `cluster_answers` (lines 38-48): a dict
from label to the answers carrying that label, keys in first-occurrence
order, values in index order. -/
def groupByLabels (labels : List ℕ) (answers : List String) : List (List String) :=
  (firstDedup labels).map
    (fun k => ((labels.zip answers).filter (fun p => p.1 = k)).map Prod.snd)

/-- Interface contract of `KMeans(...).fit_predict` as used here: one label
per input row, and equal rows receive equal labels (each point is assigned
to its nearest centroid, with deterministic tie-breaking, so identical
rows always share a label). -/
def KMeansContract (kml : ℕ → List (List ℝ) → List ℕ) : Prop :=
  ∀ n rows, (kml n rows).length = rows.length ∧
    ∀ p q : List ℝ × ℕ, p ∈ rows.zip (kml n rows) → q ∈ rows.zip (kml n rows) →
      p.1 = q.1 → p.2 = q.2

/-- A degenerate labelling (all rows labelled 0).  This is what any
labelling satisfying `KMeansContract` must produce when all rows are
equal, e.g. when every answer has the same token multiset. -/
def constantLabels : ℕ → List (List ℝ) → List ℕ :=
  fun _ rows => List.replicate rows.length 0

/-- A labelling alternating 0/1 by position (used to exercise the
multi-cluster path of `cluster_answers` on concrete inputs). -/
def alternatingLabels : ℕ → List (List ℝ) → List ℕ :=
  fun _ rows => (List.range rows.length).map (fun i => i % 2)

/-- `clustering.cluster_answers`, with the KMeans optimizer abstracted as
the label function `kml`.  Branches, in source order: fewer than 2 answers;
all answers identical; vectorization failure (empty vocabulary — the
caught `ValueError`); `n_clusters = min(max_clusters, distinct, count) < 2`;
KMeans grouping; single-surviving-group fallback to `split_into_groups`. -/
noncomputable def cluster_answers (kml : ℕ → List (List ℝ) → List ℕ)
    (answers : List String) (max_clusters : ℕ) : List (List String) :=
  if answers.length < 2 then []
  else if answers.dedup.length = 1 then [answers]
  else if vocab answers = [] then [answers]
  else if min max_clusters (min answers.dedup.length answers.length) < 2 then [answers]
  else if (groupByLabels
      (kml (min max_clusters (min answers.dedup.length answers.length))
        (answers.map (tfidfRow answers))) answers).length = 1 then
    split_into_groups answers max_clusters
  else
    groupByLabels
      (kml (min max_clusters (min answers.dedup.length answers.length))
        (answers.map (tfidfRow answers))) answers

/-! ## insights.py and app.py data: `Insight`, `calculate_scores` -/

/-- One entry of the `common_mistakes` list: a dict
`{"type": ..., "count": ..., "percentage": ...}` (field `mtype` models the
key `type`). -/
structure Mistake where
  mtype : String
  count : ℕ
  percentage : ℚ
deriving DecidableEq

/-- The per-question insight record built by
`insights.analyze_grouped_answers`. -/
structure Insight where
  total_responses : ℕ
  common_words : List (String × ℕ)
  avg_similarity : ℝ
  frequent_answers : List String
  difficulty : String
  common_mistakes : List Mistake

/-- `app.calculate_scores`: the insight score (a float) and the confidence
score (a Python int, hence ℕ here).  The guard `if total else 0` of the
source is the `total ≠ 0` test. -/
noncomputable def calculate_scores (question : String) (insights : Insight)
    (clusters : List (List String)) (weak_concepts : WeakSignals) : ℝ × ℕ :=
  let vocab_score : ℝ := if weak_concepts.low_vocab_diversity then 0 else 1
  let length_score : ℝ := 1 -
    (if insights.total_responses ≠ 0 then
      (weak_concepts.short_answers : ℝ) / insights.total_responses else 0)
  let insight_score := insights.avg_similarity * 40 + vocab_score * 20 +
    length_score * 20 + 20
  (round2 (min insight_score 100),
    min 100 (insights.total_responses * 10 + clusters.length * 15))

/-! ## insights.py: `analyze_grouped_answers` and its helpers -/

/-- One normalized answer record (the fields of `grouped_data` rows used by
the analysis core). -/
structure Entry where
  student_id : String
  student_name : String
  answer : String
deriving DecidableEq

/-- Python `str.lower()` (character-wise on the ASCII inputs here). -/
def pyLower (s : String) : String := String.mk (s.toList.map Char.toLower)

/-- Python `str.strip()`. -/
def pyStrip (s : String) : String :=
  String.mk (((s.toList.dropWhile Char.isWhitespace).reverse.dropWhile
    Char.isWhitespace).reverse)

/-- Python `s.endswith(".")`. -/
def endsWithDot (s : String) : Bool := s.toList.getLast? == some '.'

/-- The "no content" token set of `detect_common_mistakes`. -/
def noContentTokens : List String := ["", "n/a", "none", "idk", "don\x27t know"]

/-- `insights.detect_common_mistakes`: three fixed detectors, reported only
when their count is positive, with percentage rounded to 1 decimal. -/
def detect_common_mistakes (entries : List Entry) : List Mistake :=
  let patterns : List (String × (String → Bool)) :=
    [("short_answer", fun a => (pyWords a).length ≤ 3),
     ("no_content", fun a => noContentTokens.contains (pyLower (pyStrip a))),
     ("incomplete", fun a => (!endsWithDot a) && (pyWords a).length < 5)]
  patterns.filterMap (fun pc =>
    let cnt := (entries.filter (fun e => pc.2 e.answer)).length
    if 0 < cnt then
      some ⟨pc.1, cnt, round1 ((cnt : ℚ) / (entries.length : ℚ) * 100)⟩
    else none)

/-- `collections.Counter(words).items()`: (word, count) pairs in
first-occurrence order. -/
def counterItems (words : List String) : List (String × ℕ) :=
  (firstDedup words).map (fun w => (w, words.count w))

/-- `Counter(words).most_common(5)`: stable sort by count descending,
first five.  (Python's sort is a stable sort; the stable sort of a list
under a total preorder is unique, so the stable `insertionSort` gives the
same result as CPython's timsort.) -/
def mostCommon5 (words : List String) : List (String × ℕ) :=
  ((counterItems words).insertionSort (fun a b => b.2 ≤ a.2)).take 5

/-- `insights.calculate_difficulty` (the similarity passed in is the raw,
unrounded matrix mean, as in the source). -/
noncomputable def calculate_difficulty (answers : List String)
    (avg_similarity : ℝ) : String :=
  let avg_length : ℚ := if answers.isEmpty then 0 else
    ((answers.map (fun a => ((pyWords a).length : ℚ))).sum / (answers.length : ℚ))
  let joined := pyWords (String.intercalate " " answers)
  let unique_ratio : ℚ := (joined.dedup.length : ℚ) / (max joined.length 1 : ℕ)
  let difficulty_score : ℝ := ((avg_length : ℝ) / 20) * 0.4
    + (unique_ratio : ℝ) * 0.3 + (1 - avg_similarity) * 0.3
  if 0.6 < difficulty_score then "Hard"
  else if 0.35 < difficulty_score then "Medium"
  else "Easy"

/-- The per-question body of `insights.analyze_grouped_answers`.  With two
or more answers the TF-IDF vectorization runs UNGUARDED in the source
(no try/except, unlike `cluster_answers`), so an empty vocabulary raises
`ValueError`, modelled as `Except.error ()`. -/
noncomputable def analyzeQuestion (entries : List Entry) : Except Unit Insight :=
  if 1 < (entries.map (fun e => e.answer)).length
      ∧ vocab (entries.map (fun e => e.answer)) = [] then .error ()
  else
    .ok ⟨(entries.map (fun e => e.answer)).length,
      mostCommon5 (pyWords (pyLower
        (String.intercalate " " (entries.map (fun e => e.answer))))),
      round2 (if 1 < (entries.map (fun e => e.answer)).length
        then meanSim (entries.map (fun e => e.answer)) else 0),
      (firstDedup (entries.map (fun e => e.answer))).filter
        (fun a => 1 < (entries.map (fun e => e.answer)).count a),
      calculate_difficulty (entries.map (fun e => e.answer))
        (if 1 < (entries.map (fun e => e.answer)).length
          then meanSim (entries.map (fun e => e.answer)) else 0),
      detect_common_mistakes entries⟩

/-- `insights.analyze_grouped_answers` over the grouped mapping (insertion
order preserved); an exception in any question's body propagates. -/
noncomputable def analyze_grouped_answers :
    List (String × List Entry) → Except Unit (List (String × Insight))
  | [] => .ok []
  | (q, entries) :: rest =>
    match analyzeQuestion entries with
    | .error e => .error e
    | .ok i =>
      match analyze_grouped_answers rest with
      | .error e => .error e
      | .ok r => .ok ((q, i) :: r)

/-! ## insights.py: `identify_strong_weak_students` -/

/-- The per-answer score of `identify_strong_weak_students`: length-tier
bonus, short-answer penalty, and a +20 uniqueness bonus that the source
only grants inside `if insights[question]["frequent_answers"]:` — i.e.
never when the question has no frequent answers. -/
def answer_score (frequent_answers : List String) (answer : String) : ℤ :=
  let answer_length := (pyWords answer).length
  let tier : ℤ := if 10 ≤ answer_length then 30
    else if 5 ≤ answer_length then 20 else 5
  let tier2 : ℤ := if answer_length ≤ 4 then tier - 10 else tier
  if frequent_answers ≠ [] ∧ answer ∉ frequent_answers then tier2 + 20 else tier2

/-- All (question, entry) pairs in iteration order (outer loop over
questions, inner loop over entries). -/
def studentPairs (grouped : List (String × List Entry)) : List (String × Entry) :=
  grouped.flatMap (fun qe => qe.2.map (fun e => (qe.1, e)))

/-- One `student_data` record of `identify_strong_weak_students`
(`avg_score` and `avg_answer_length` are stored rounded to 1 decimal). -/
structure StudentRow where
  student_id : String
  name : String
  avg_score : ℚ
  avg_answer_length : ℚ
deriving DecidableEq

/-- The classification result: the three lists returned by
`identify_strong_weak_students`. -/
structure Classification where
  strong : List StudentRow
  weak : List StudentRow
  average : List StudentRow
deriving DecidableEq

/-- The scores accumulated for one student, in iteration order.  `freq q`
models the lookup `insights[q]["frequent_answers"]`. -/
def student_score_list (grouped : List (String × List Entry))
    (freq : String → List String) (sid : String) : List ℤ :=
  ((studentPairs grouped).filter (fun p => p.2.student_id = sid)).map
    (fun p => answer_score (freq p.1) p.2.answer)

/-- The answer word counts accumulated for one student. -/
def student_length_list (grouped : List (String × List Entry)) (sid : String) :
    List ℕ :=
  ((studentPairs grouped).filter (fun p => p.2.student_id = sid)).map
    (fun p => (pyWords p.2.answer).length)

/-- The (unrounded) average score used for the strong/weak/average
thresholds. -/
def student_avg (grouped : List (String × List Entry))
    (freq : String → List String) (sid : String) : ℚ :=
  if (student_score_list grouped freq sid).length = 0 then 0
  else ((student_score_list grouped freq sid).sum : ℚ)
    / ((student_score_list grouped freq sid).length : ℚ)

/-- The name stored when the student's dict entry is first created. -/
def student_name_of (grouped : List (String × List Entry)) (sid : String) :
    String :=
  ((((studentPairs grouped).filter (fun p => p.2.student_id = sid)).head?).map
    (fun p => p.2.student_name)).getD ""

/-- The `student_data` dict built for one student. -/
def student_row (grouped : List (String × List Entry))
    (freq : String → List String) (sid : String) : StudentRow :=
  ⟨sid, student_name_of grouped sid, round1 (student_avg grouped freq sid),
    round1 (if (student_length_list grouped sid).length = 0 then 0
      else ((student_length_list grouped sid).sum : ℚ)
        / ((student_length_list grouped sid).length : ℚ))⟩

/-- `insights.identify_strong_weak_students`: classify by the unrounded
average (≥40 strong, ≤20 weak, else average), sort each list by the
stored (rounded) `avg_score` — strong and average descending, weak
ascending, all stably — and cap strong/weak at 10.  (`insertionSort` with
these relations is the stable sort CPython's `list.sort` performs.) -/
def identify_strong_weak_students (grouped : List (String × List Entry))
    (freq : String → List String) : Classification :=
  let sids := firstDedup ((studentPairs grouped).map (fun p => p.2.student_id))
  let strong := (sids.filter
    (fun sid => 40 ≤ student_avg grouped freq sid)).map (student_row grouped freq)
  let weak := (sids.filter (fun sid => ¬ 40 ≤ student_avg grouped freq sid
    ∧ student_avg grouped freq sid ≤ 20)).map (student_row grouped freq)
  let average := (sids.filter (fun sid => ¬ 40 ≤ student_avg grouped freq sid
    ∧ ¬ student_avg grouped freq sid ≤ 20)).map (student_row grouped freq)
  ⟨(strong.insertionSort (fun a b => b.avg_score ≤ a.avg_score)).take 10,
    (weak.insertionSort (fun a b => a.avg_score ≤ b.avg_score)).take 10,
    average.insertionSort (fun a b => b.avg_score ≤ a.avg_score)⟩

/-! ## app.py: file-based run storage and the `teaching_action` override -/

/-- The slice of a stored analysis run the override touches:
`data["summaries"][question_id]["teaching_action"]`, as an association
list from question id to teaching action. -/
structure RunData where
  summaries : List (String × String)
deriving DecidableEq

/-- The session cookie (`session["analysis_id"]`). -/
structure Session where
  analysis_id : Option ℕ
deriving DecidableEq

/-- `app.save_analysis_to_file`: generates a FRESH id (`uuid.uuid4()`,
modelled by the `fresh` parameter, assumed unused in the store) and
writes the data under that id, returning the new id. -/
def save_analysis_to_file (fresh : ℕ) (store : List (ℕ × RunData))
    (data : RunData) : ℕ × List (ℕ × RunData) :=
  (fresh, (fresh, data) :: store)

/-- `app.load_analysis_from_file`. -/
def load_analysis_from_file (store : List (ℕ × RunData)) (analysis_id : ℕ) :
    Option RunData :=
  (store.find? (fun p => p.1 = analysis_id)).map (fun p => p.2)

/-- `data["summaries"][question_id]["teaching_action"] = feedback` (the
claim quantifies over question ids present in the run, so the KeyError on
an absent id is out of scope and modelled as a no-op). -/
def setTeachingAction (data : RunData) (question_id feedback : String) :
    RunData :=
  ⟨data.summaries.map (fun qs =>
    if qs.1 = question_id then (qs.1, feedback) else qs)⟩

/-- `app.save_feedback`: loads the session's run, mutates the
teaching action, and calls `save_analysis_to_file(data)` — whose fresh
return id is DISCARDED and the session's `analysis_id` left untouched.
Returns (store, session, success-flag). -/
def save_feedback (fresh : ℕ) (store : List (ℕ × RunData)) (sess : Session)
    (question_id feedback : String) :
    List (ℕ × RunData) × Session × Bool :=
  Option.elim sess.analysis_id (store, sess, false) (fun analysis_id =>
    Option.elim (load_analysis_from_file store analysis_id)
      (store, sess, false) (fun data =>
        if question_id ≠ "" ∧ feedback ≠ "" then
          ((save_analysis_to_file fresh store
            (setTeachingAction data question_id feedback)).2, sess, true)
        else (store, sess, false)))

/-! ## explainability.py: cluster explanations of the transparency report -/

/-- One entry of the report's `cluster_explanations` list (the unused
`threshold=0.3` parameter of the source and the appended `cluster_id` are
omitted). -/
structure ClusterExplanation where
  cluster_size : ℕ
  class_percentage : ℚ
  classification : String
  explanation : String
  sample_answers : List String
deriving DecidableEq

/-- `explainability.explain_cluster_selection`: percentage of
`all_answers` covered by the cluster (0 when the list is empty), rounded
to 1 decimal, classified against the 40/20 thresholds; the first three
answers as samples (`cluster[:3] if len(cluster) > 3 else cluster`). -/
def explain_cluster_selection (cluster : List String)
    (all_answers : List String) : ClusterExplanation :=
  let percentage : ℚ := if 0 < all_answers.length then
    round1 ((cluster.length : ℚ) / (all_answers.length : ℚ) * 100) else 0
  ⟨cluster.length, percentage,
    if 40 < percentage then "Highly Common"
    else if 20 < percentage then "Moderately Common"
    else "Less Common",
    if 40 < percentage then
      "This answer pattern is shared by a large portion of the class."
    else if 20 < percentage then "Several students shared this answer pattern."
    else "Fewer students shared this answer pattern.",
    cluster.take 3⟩

/-- The `cluster_explanations` list of
`explainability.generate_transparency_report`: each cluster is explained
against `insights.get("frequent_answers", []) + [c for c_list in clusters
for c in c_list]` — NOT against the question's `total_responses`.  (The
report's other sections are not referenced by any claim.) -/
def transparency_cluster_explanations (insights : Insight)
    (clusters : List (List String)) : List ClusterExplanation :=
  clusters.map (fun c =>
    explain_cluster_selection c (insights.frequent_answers ++ clusters.flatten))

/-! ## Theorems -/

/-! ### List helpers for the clustering proofs -/

theorem mem_firstDedupAux {α : Type} [DecidableEq α] (a : α) :
    ∀ (l seen : List α), a ∈ firstDedupAux l seen ↔ a ∈ l ∧ a ∉ seen := by
  intro l
  induction l with
  | nil => simp [firstDedupAux]
  | cons b l ih =>
    intro seen
    by_cases hb : b ∈ seen
    · rw [firstDedupAux, if_pos hb, ih]
      by_cases hab : a = b
      · subst hab
        simp [hb]
      · simp [hab]
    · rw [firstDedupAux, if_neg hb]
      simp only [List.mem_cons, ih]
      by_cases hab : a = b
      · subst hab
        simp [hb]
      · simp [hab]

theorem nodup_firstDedupAux {α : Type} [DecidableEq α] :
    ∀ (l seen : List α), (firstDedupAux l seen).Nodup := by
  intro l
  induction l with
  | nil => simp [firstDedupAux]
  | cons b l ih =>
    intro seen
    by_cases hb : b ∈ seen
    · rw [firstDedupAux, if_pos hb]
      exact ih seen
    · rw [firstDedupAux, if_neg hb, List.nodup_cons]
      refine ⟨fun hmem => ?_, ih (b :: seen)⟩
      have := (mem_firstDedupAux b l (b :: seen)).mp hmem
      exact this.2 (List.mem_cons_self b seen)

theorem mem_firstDedup {α : Type} [DecidableEq α] (l : List α) (a : α) :
    a ∈ firstDedup l ↔ a ∈ l := by
  rw [firstDedup, mem_firstDedupAux]
  simp

theorem nodup_firstDedup {α : Type} [DecidableEq α] (l : List α) :
    (firstDedup l).Nodup :=
  nodup_firstDedupAux l []

theorem flatten_map_singleton {α : Type} (l : List α) :
    (l.map (fun a => [a])).flatten = l := by
  induction l with
  | nil => rfl
  | cons a l ih => simp [ih]

theorem flatten_filter_not_isEmpty {α : Type} (L : List (List α)) :
    (L.filter (fun g => !g.isEmpty)).flatten = L.flatten := by
  induction L with
  | nil => rfl
  | cons g L ih =>
    by_cases hg : g.isEmpty
    · have hnil : g = [] := List.isEmpty_iff.mp hg
      simp [hnil, ih]
    · simp [List.filter_cons, hg, ih]

theorem chunks_take {α : Type} (l : List α) (gs : ℕ) (m : ℕ) :
    ((List.range m).map (fun i => (l.drop (i * gs)).take gs)).flatten = l.take (m * gs) := by
  induction m with
  | zero => simp
  | succ m ih =>
    rw [List.range_succ, List.map_append, List.flatten_append, ih]
    simp only [List.map_cons, List.map_nil, List.flatten_cons, List.flatten_nil,
      List.append_nil]
    rw [Nat.succ_mul, List.take_add]

theorem split_into_groups_flatten (answers : List String) (mg : ℕ) (h : 1 ≤ mg) :
    (split_into_groups answers mg).flatten = answers := by
  unfold split_into_groups
  by_cases hle : answers.length ≤ mg
  · simp [hle, flatten_map_singleton]
  · rw [if_neg hle, flatten_filter_not_isEmpty]
    obtain ⟨k, rfl⟩ : ∃ k, mg = k + 1 := ⟨mg - 1, (Nat.succ_pred_eq_of_pos h).symm⟩
    rw [List.range_succ, List.map_append]
    have hcg : (List.range k).map (fun i =>
          if i = k + 1 - 1 then answers.drop (i * (answers.length / (k + 1)))
          else (answers.drop (i * (answers.length / (k + 1)))).take
            (answers.length / (k + 1)))
        = (List.range k).map (fun i =>
          (answers.drop (i * (answers.length / (k + 1)))).take
            (answers.length / (k + 1))) := by
      apply List.map_congr_left
      intro i hi
      have hik : ¬ (i = k + 1 - 1) := by
        simp only [List.mem_range] at hi
        omega
      rw [if_neg hik]
    rw [hcg, List.flatten_append, chunks_take]
    have hlast : ((List.map (fun i => if i = k + 1 - 1
        then answers.drop (i * (answers.length / (k + 1)))
        else (answers.drop (i * (answers.length / (k + 1)))).take
          (answers.length / (k + 1))) [k])).flatten
        = answers.drop (k * (answers.length / (k + 1))) := by
      simp
    rw [hlast]
    exact List.take_append_drop _ _

theorem split_into_groups_nonempty (answers : List String) (mg : ℕ) :
    ∀ g ∈ split_into_groups answers mg, g ≠ [] := by
  intro g hg
  unfold split_into_groups at hg
  by_cases hle : answers.length ≤ mg
  · rw [if_pos hle] at hg
    obtain ⟨a, _, rfl⟩ := List.mem_map.mp hg
    simp
  · rw [if_neg hle] at hg
    have hb := (List.mem_filter.mp hg).2
    rintro rfl
    simp at hb

theorem flatten_keyGroups_perm {κ α : Type} [DecidableEq κ] :
    ∀ (ks : List κ) (ps : List (κ × α)), ks.Nodup → (∀ p ∈ ps, p.1 ∈ ks) →
    ((ks.map (fun k => (ps.filter (fun p => p.1 = k)).map Prod.snd)).flatten).Perm
      (ps.map Prod.snd) := by
  intro ks
  induction ks with
  | nil =>
    intro ps _ hcov
    have hnil : ps = [] :=
      List.eq_nil_iff_forall_not_mem.mpr (fun p hp => by simpa using hcov p hp)
    simp [hnil]
  | cons k ks ih =>
    intro ps hnd hcov
    have hnd' := List.nodup_cons.mp hnd
    simp only [List.map_cons, List.flatten_cons]
    have hmap : ks.map (fun k' => (ps.filter (fun p => p.1 = k')).map Prod.snd)
        = ks.map (fun k' =>
            (((ps.filter (fun p => !(decide (p.1 = k)))).filter
              (fun p => p.1 = k'))).map Prod.snd) := by
      apply List.map_congr_left
      intro k' hk'
      rw [List.filter_filter]
      congr 1
      apply List.filter_congr
      intro p _
      by_cases hp : p.1 = k'
      · have hkk' : ¬ (k' = k) := fun hkk => hnd'.1 (hkk ▸ hk')
        simp [hp, hkk']
      · simp [hp]
    rw [hmap]
    have hcov' : ∀ p ∈ ps.filter (fun p => !(decide (p.1 = k))), p.1 ∈ ks := by
      intro p hp
      obtain ⟨hpm, hpb⟩ := List.mem_filter.mp hp
      simp only [Bool.not_eq_eq_eq_not, Bool.not_true, decide_eq_false_iff_not] at hpb
      rcases List.mem_cons.mp (hcov p hpm) with h | h
      · exact absurd h hpb
      · exact h
    have H := ih (ps.filter (fun p => !(decide (p.1 = k)))) hnd'.2 hcov'
    refine (List.Perm.append_left _ H).trans ?_
    rw [← List.map_append]
    exact (List.filter_append_perm _ ps).map Prod.snd

theorem groupByLabels_flatten_perm (labels : List ℕ) (answers : List String)
    (hlen : labels.length = answers.length) :
    ((groupByLabels labels answers).flatten).Perm answers := by
  unfold groupByLabels
  have hcov : ∀ p ∈ labels.zip answers, p.1 ∈ firstDedup labels := by
    intro p hp
    exact (mem_firstDedup _ _).mpr (List.of_mem_zip hp).1
  have h := flatten_keyGroups_perm (firstDedup labels) (labels.zip answers)
    (nodup_firstDedup labels) hcov
  rwa [List.map_snd_zip _ _ (le_of_eq hlen.symm)] at h

theorem groupByLabels_nonempty (labels : List ℕ) (answers : List String)
    (hlen : labels.length = answers.length) :
    ∀ c ∈ groupByLabels labels answers, c ≠ [] := by
  intro c hc
  unfold groupByLabels at hc
  obtain ⟨k, hk, rfl⟩ := List.mem_map.mp hc
  obtain ⟨i, hi, hik⟩ := List.mem_iff_getElem.mp ((mem_firstDedup _ _).mp hk)
  have hia : i < answers.length := hlen ▸ hi
  have hiz : i < (labels.zip answers).length := by
    rw [List.length_zip, hlen]
    simp [hia]
  have hpair : (k, answers[i]) ∈ labels.zip answers := by
    have := List.getElem_mem hiz
    rwa [List.getElem_zip, hik] at this
  have hmemc : answers[i] ∈
      ((labels.zip answers).filter (fun p => p.1 = k)).map Prod.snd :=
    List.mem_map.mpr ⟨(k, answers[i]), List.mem_filter.mpr ⟨hpair, by simp⟩, rfl⟩
  exact List.ne_nil_of_mem hmemc

theorem dedup_length_eq_one_iff {α : Type} [DecidableEq α] (l : List α)
    (hne : l ≠ []) : l.dedup.length = 1 ↔ ∃ x, ∀ a ∈ l, a = x := by
  constructor
  · intro h
    obtain ⟨x, hx⟩ := List.length_eq_one.mp h
    refine ⟨x, fun a ha => ?_⟩
    have hmem : a ∈ l.dedup := List.mem_dedup.mpr ha
    rw [hx] at hmem
    simpa using hmem
  · rintro ⟨x, hx⟩
    obtain ⟨b, t, rfl⟩ : ∃ b t, l = b :: t := by
      cases l with
      | nil => exact absurd rfl hne
      | cons b t => exact ⟨b, t, rfl⟩
    have hxl : x ∈ (b :: t) := by
      have hb := hx b (by simp)
      rw [← hb]
      simp
    have hsing : (b :: t).dedup = [x] := by
      have hnd := List.nodup_dedup (b :: t)
      cases hd : (b :: t).dedup with
      | nil =>
        have : x ∈ (b :: t).dedup := List.mem_dedup.mpr hxl
        rw [hd] at this
        simp at this
      | cons y ys =>
        have hy : y = x := hx y (List.mem_dedup.mp (hd ▸ List.mem_cons_self y ys))
        have hys : ys = [] := by
          by_contra hysne
          obtain ⟨z, hz⟩ := List.exists_mem_of_ne_nil ys hysne
          have hzx : z = x :=
            hx z (List.mem_dedup.mp (hd ▸ List.mem_cons_of_mem y hz))
          have hnd' := hd ▸ hnd
          rw [List.nodup_cons] at hnd'
          exact hnd'.1 (hy ▸ hzx ▸ hz)
        rw [hy, hys]
    rw [hsing]
    rfl

theorem constantLabels_contract : KMeansContract constantLabels := by
  intro n rows
  constructor
  · simp [constantLabels]
  · intro p q hp hq _
    have hp2 := (List.of_mem_zip hp).2
    have hq2 := (List.of_mem_zip hq).2
    rw [List.eq_of_mem_replicate hp2, List.eq_of_mem_replicate hq2]

theorem labels_functional (kml : ℕ → List (List ℝ) → List ℕ)
    (hkm : KMeansContract kml) (answers : List String) (n : ℕ)
    (i j : ℕ) (hi : i < answers.length) (hj : j < answers.length)
    (heq : answers[i] = answers[j]) :
    (kml n (answers.map (tfidfRow answers))).get ⟨i, by
        rw [(hkm n _).1, List.length_map]; exact hi⟩
      = (kml n (answers.map (tfidfRow answers))).get ⟨j, by
        rw [(hkm n _).1, List.length_map]; exact hj⟩ := by
  have hrl : (answers.map (tfidfRow answers)).length = answers.length :=
    List.length_map _ _
  have hll : (kml n (answers.map (tfidfRow answers))).length = answers.length := by
    rw [(hkm n _).1, hrl]
  have hzl : ((answers.map (tfidfRow answers)).zip
      (kml n (answers.map (tfidfRow answers)))).length = answers.length := by
    rw [List.length_zip, hrl, hll]
    simp
  have hi' : i < ((answers.map (tfidfRow answers)).zip
      (kml n (answers.map (tfidfRow answers)))).length := hzl ▸ hi
  have hj' : j < ((answers.map (tfidfRow answers)).zip
      (kml n (answers.map (tfidfRow answers)))).length := hzl ▸ hj
  have hpm := List.getElem_mem hi'
  have hqm := List.getElem_mem hj'
  rw [List.getElem_zip] at hpm hqm
  have hrow : (answers.map (tfidfRow answers)).get ⟨i, hrl ▸ hi⟩
      = (answers.map (tfidfRow answers)).get ⟨j, hrl ▸ hj⟩ := by
    simp only [List.get_eq_getElem, List.getElem_map, heq]
  exact (hkm n _).2 _ _ hpm hqm hrow

theorem mem_groupOf (labels : List ℕ) (answers : List String) (k : ℕ) (s : String) :
    s ∈ ((labels.zip answers).filter (fun p => p.1 = k)).map Prod.snd ↔
      (k, s) ∈ labels.zip answers := by
  constructor
  · intro hs
    obtain ⟨p, hpf, hps⟩ := List.mem_map.mp hs
    obtain ⟨hpm, hpk⟩ := List.mem_filter.mp hpf
    have hk : p.1 = k := by simpa using hpk
    have : p = (k, s) := Prod.ext hk hps
    rwa [this] at hpm
  · intro hm
    exact List.mem_map.mpr ⟨(k, s), List.mem_filter.mpr ⟨hm, by simp⟩, rfl⟩

theorem zip_mem_label (labels : List ℕ) (answers : List String)
    (hlen : labels.length = answers.length) (k : ℕ) (s : String)
    (h : (k, s) ∈ labels.zip answers) :
    ∃ i, ∃ hi : i < answers.length,
      labels.get ⟨i, hlen ▸ hi⟩ = k ∧ answers[i] = s := by
  obtain ⟨i, hiz, hig⟩ := List.mem_iff_getElem.mp h
  have hia : i < answers.length := by
    rw [List.length_zip, hlen] at hiz
    simpa using hiz
  refine ⟨i, hia, ?_, ?_⟩
  · have := hig
    rw [List.getElem_zip] at this
    exact congrArg Prod.fst this
  · have := hig
    rw [List.getElem_zip] at this
    exact congrArg Prod.snd this

/-- C4: `cluster_answers` follows the degenerate-input policy in source
order: fewer than 2 answers gives the empty list; all-identical answers
give one cluster of all of them; empty-vocabulary vectorization failure
gives one cluster of all answers; and
`min(max_clusters, distinct, count) < 2` gives one cluster of all
answers. -/
theorem cluster_answers_degenerate_policy (kml : ℕ → List (List ℝ) → List ℕ)
    (answers : List String) (max_clusters : ℕ) :
    (answers.length < 2 → cluster_answers kml answers max_clusters = []) ∧
    (2 ≤ answers.length → (∃ x, ∀ a ∈ answers, a = x) →
      cluster_answers kml answers max_clusters = [answers]) ∧
    (2 ≤ answers.length → ¬ (∃ x, ∀ a ∈ answers, a = x) → vocab answers = [] →
      cluster_answers kml answers max_clusters = [answers]) ∧
    (2 ≤ answers.length → ¬ (∃ x, ∀ a ∈ answers, a = x) → vocab answers ≠ [] →
      min max_clusters (min answers.dedup.length answers.length) < 2 →
      cluster_answers kml answers max_clusters = [answers]) := by
  have hne : 2 ≤ answers.length → answers ≠ [] := by
    intro h2 h
    rw [h] at h2
    simp at h2
  refine ⟨?_, ?_, ?_, ?_⟩
  · intro h
    simp [cluster_answers, h]
  · intro h2 hall
    have hd : answers.dedup.length = 1 :=
      (dedup_length_eq_one_iff answers (hne h2)).mpr hall
    simp [cluster_answers, not_lt.mpr h2, hd]
  · intro h2 hall hvoc
    have hd : answers.dedup.length ≠ 1 :=
      fun h => hall ((dedup_length_eq_one_iff answers (hne h2)).mp h)
    simp [cluster_answers, not_lt.mpr h2, hd, hvoc]
  · intro h2 hall hvoc hmin
    have hd : answers.dedup.length ≠ 1 :=
      fun h => hall ((dedup_length_eq_one_iff answers (hne h2)).mp h)
    simp [cluster_answers, not_lt.mpr h2, hd, hvoc, hmin]

theorem cluster_answers_degenerate_policy_witness :
    cluster_answers constantLabels ["x"] 5 = [] ∧
    cluster_answers constantLabels ["a", "a"] 5 = [["a", "a"]] ∧
    cluster_answers constantLabels ["the", "of the"] 5 = [["the", "of the"]] ∧
    cluster_answers constantLabels ["cat", "dog"] 1 = [["cat", "dog"]] := by
  have hni : ¬ ∃ x, ∀ a ∈ (["the", "of the"] : List String), a = x := by
    rintro ⟨x, hx⟩
    have h1 := hx "the" (by simp)
    have h2 := hx "of the" (by simp)
    exact absurd (h1.trans h2.symm) (by decide)
  have hni2 : ¬ ∃ x, ∀ a ∈ (["cat", "dog"] : List String), a = x := by
    rintro ⟨x, hx⟩
    have h1 := hx "cat" (by simp)
    have h2 := hx "dog" (by simp)
    exact absurd (h1.trans h2.symm) (by decide)
  refine ⟨(cluster_answers_degenerate_policy constantLabels ["x"] 5).1 (by decide),
    (cluster_answers_degenerate_policy constantLabels ["a", "a"] 5).2.1 (by decide)
      ⟨"a", by decide⟩,
    (cluster_answers_degenerate_policy constantLabels ["the", "of the"] 5).2.2.1
      (by decide) hni (by decide),
    (cluster_answers_degenerate_policy constantLabels ["cat", "dog"] 1).2.2.2
      (by decide) hni2 (by decide) (by decide)⟩

/-- C2: for every answer list with at least 2 answers, every
`max_clusters`, and every KMeans labelling satisfying the interface
contract, the multiset union of the clusters returned by
`cluster_answers` is exactly the multiset of input answers, and every
returned cluster is non-empty. -/
theorem cluster_answers_partition_complete (kml : ℕ → List (List ℝ) → List ℕ)
    (answers : List String) (max_clusters : ℕ)
    (hkm : KMeansContract kml) (h2 : 2 ≤ answers.length) :
    ((cluster_answers kml answers max_clusters).flatten).Perm answers ∧
      ∀ c ∈ cluster_answers kml answers max_clusters, c ≠ [] := by
  have hne : answers ≠ [] := by
    intro h
    rw [h] at h2
    simp at h2
  have hnlt : ¬ answers.length < 2 := not_lt.mpr h2
  have hsingle : (([answers] : List (List String)).flatten).Perm answers ∧
      ∀ c ∈ ([answers] : List (List String)), c ≠ [] := by
    constructor
    · simp
    · intro c hc
      rw [List.mem_singleton] at hc
      rw [hc]
      exact hne
  unfold cluster_answers
  rw [if_neg hnlt]
  by_cases hd : answers.dedup.length = 1
  · rw [if_pos hd]
    exact hsingle
  · rw [if_neg hd]
    by_cases hv : vocab answers = []
    · rw [if_pos hv]
      exact hsingle
    · rw [if_neg hv]
      by_cases hmin : min max_clusters (min answers.dedup.length answers.length) < 2
      · rw [if_pos hmin]
        exact hsingle
      · rw [if_neg hmin]
        have hlen : (kml (min max_clusters (min answers.dedup.length answers.length))
            (answers.map (tfidfRow answers))).length = answers.length := by
          rw [(hkm _ _).1, List.length_map]
        by_cases hone : (groupByLabels
            (kml (min max_clusters (min answers.dedup.length answers.length))
              (answers.map (tfidfRow answers))) answers).length = 1
        · rw [if_pos hone]
          have hmg : 1 ≤ max_clusters := by
            have h2n := not_lt.mp hmin
            have hle : min max_clusters (min answers.dedup.length answers.length)
                ≤ max_clusters := min_le_left _ _
            omega
          constructor
          · rw [split_into_groups_flatten answers max_clusters hmg]
          · exact split_into_groups_nonempty answers max_clusters
        · rw [if_neg hone]
          exact ⟨groupByLabels_flatten_perm _ answers hlen,
            groupByLabels_nonempty _ answers hlen⟩

theorem cluster_answers_partition_complete_witness :
    ((cluster_answers constantLabels ["aa", "bb"] 5).flatten).Perm ["aa", "bb"] ∧
      ∀ c ∈ cluster_answers constantLabels ["aa", "bb"] 5, c ≠ [] :=
  cluster_answers_partition_complete constantLabels ["aa", "bb"] 5
    constantLabels_contract (by decide)

/-- C6 (counterexample): with three answers sharing one token multiset
(`"cat the"` twice and `"the cat"` once, all with TF-IDF row `[cat]`),
every contract-satisfying KMeans labelling gives all rows one label, so
`cluster_answers` takes the singleton-fallback of `split_into_groups`
and the repeated literal answer `"cat the"` lands in two different
clusters; the clusters are not value-disjoint. -/
theorem cluster_answers_repeated_split_cex :
    cluster_answers constantLabels ["cat the", "cat the", "the cat"] 5
      = [["cat the"], ["cat the"], ["the cat"]] ∧
    ¬ ((cluster_answers constantLabels ["cat the", "cat the", "the cat"] 5).Pairwise
        (fun c c' => ∀ s ∈ c, s ∉ c')) := by
  have h : cluster_answers constantLabels ["cat the", "cat the", "the cat"] 5
      = [["cat the"], ["cat the"], ["the cat"]] := by decide
  refine ⟨h, ?_⟩
  rw [h]
  decide

/-- C6 (amended): whenever the single-surviving-group fallback is not
taken (the KMeans labelling has more than one distinct label, or an
earlier degenerate branch returns), the clusters of `cluster_answers`
are pairwise value-disjoint and every occurrence of a repeated literal
answer lies in one and the same cluster; the positional
`split_into_groups` fallback can instead split a repeated literal across
clusters. -/
theorem cluster_answers_value_disjoint (kml : ℕ → List (List ℝ) → List ℕ)
    (answers : List String) (max_clusters : ℕ)
    (hkm : KMeansContract kml)
    (hnf : (groupByLabels (kml (min max_clusters (min answers.dedup.length answers.length))
        (answers.map (tfidfRow answers))) answers).length ≠ 1) :
    ((cluster_answers kml answers max_clusters).Pairwise
        (fun c c' => ∀ s ∈ c, s ∉ c')) ∧
      ∀ c ∈ cluster_answers kml answers max_clusters, ∀ s ∈ c,
        c.count s = answers.count s := by
  have hsingle : (([answers] : List (List String)).Pairwise
        (fun c c' => ∀ s ∈ c, s ∉ c')) ∧
      ∀ c ∈ ([answers] : List (List String)), ∀ s ∈ c,
        c.count s = answers.count s := by
    constructor
    · simp
    · intro c hc s _
      rw [List.mem_singleton] at hc
      rw [hc]
  unfold cluster_answers
  by_cases h1 : answers.length < 2
  · rw [if_pos h1]
    exact ⟨List.Pairwise.nil, by simp⟩
  rw [if_neg h1]
  by_cases hd : answers.dedup.length = 1
  · rw [if_pos hd]
    exact hsingle
  rw [if_neg hd]
  by_cases hv : vocab answers = []
  · rw [if_pos hv]
    exact hsingle
  rw [if_neg hv]
  by_cases hmin : min max_clusters (min answers.dedup.length answers.length) < 2
  · rw [if_pos hmin]
    exact hsingle
  rw [if_neg hmin, if_neg hnf]
  set labels := kml (min max_clusters (min answers.dedup.length answers.length))
    (answers.map (tfidfRow answers)) with hlabdef
  have hlen : labels.length = answers.length := by
    rw [hlabdef, (hkm _ _).1, List.length_map]
  have hfun : ∀ i j (hi : i < answers.length) (hj : j < answers.length),
      answers[i] = answers[j] →
      labels.get ⟨i, hlen ▸ hi⟩ = labels.get ⟨j, hlen ▸ hj⟩ := by
    intro i j hi hj heq
    exact labels_functional kml hkm answers _ i j hi hj heq
  have hdisj : ∀ k k' : ℕ, k ≠ k' →
      ∀ s ∈ ((labels.zip answers).filter (fun p => p.1 = k)).map Prod.snd,
        s ∉ ((labels.zip answers).filter (fun p => p.1 = k')).map Prod.snd := by
    intro k k' hkk s hs hs'
    obtain ⟨i, hi, hik, his⟩ := zip_mem_label labels answers hlen k s
      ((mem_groupOf labels answers k s).mp hs)
    obtain ⟨j, hj, hjk, hjs⟩ := zip_mem_label labels answers hlen k' s
      ((mem_groupOf labels answers k' s).mp hs')
    have heq : answers[i] = answers[j] := by rw [his, hjs]
    have := hfun i j hi hj heq
    rw [hik, hjk] at this
    exact hkk this
  constructor
  · unfold groupByLabels
    rw [List.pairwise_map]
    have hnd : (firstDedup labels).Nodup := nodup_firstDedup labels
    exact List.Pairwise.imp (fun {a b} hab => hdisj a b hab) hnd
  · intro c hc s hsc
    unfold groupByLabels at hc
    obtain ⟨k, _, rfl⟩ := List.mem_map.mp hc
    -- every pair of the zip whose answer is `s` carries label `k`
    have hsk : ∀ p ∈ labels.zip answers, p.2 = s → p.1 = k := by
      intro p hp hps
      obtain ⟨i, hi, hik, his⟩ := zip_mem_label labels answers hlen k s
        ((mem_groupOf labels answers k s).mp hsc)
      obtain ⟨j, hj, hjk, hjs⟩ := zip_mem_label labels answers hlen p.1 p.2
        (by rwa [← Prod.mk.eta (p := p)] at hp)
      have heq : answers[j] = answers[i] := by rw [his, hjs, hps]
      have := hfun j i hj hi heq
      rw [hik, hjk] at this
      exact this
    have hc1 : (((labels.zip answers).filter (fun p => p.1 = k)).map Prod.snd).count s
        = (labels.zip answers).countP (fun p => (p.2 == s) && decide (p.1 = k)) := by
      rw [List.count_eq_countP, List.countP_map, List.countP_filter]
      rfl
    have hc2 : (labels.zip answers).countP (fun p => (p.2 == s) && decide (p.1 = k))
        = (labels.zip answers).countP (fun p => p.2 == s) := by
      apply List.countP_congr
      intro p hp
      by_cases hps : p.2 = s
      · have hpk := hsk p hp hps
        simp [hps, hpk]
      · simp [hps]
    have hc3 : answers.count s = (labels.zip answers).countP (fun p => p.2 == s) := by
      conv_lhs => rw [← List.map_snd_zip labels answers (le_of_eq hlen.symm)]
      rw [List.count_eq_countP, List.countP_map]
      rfl
    rw [hc1, hc2, ← hc3]

theorem cluster_answers_value_disjoint_witness :
    ((cluster_answers constantLabels [] 5).Pairwise
        (fun c c' => ∀ s ∈ c, s ∉ c')) ∧
      ∀ c ∈ cluster_answers constantLabels [] 5, ∀ s ∈ c,
        c.count s = List.count s ([] : List String) :=
  cluster_answers_value_disjoint constantLabels [] 5 constantLabels_contract
    (by decide)

/-- C8 (counterexample): on the spec's scenario input
`["ok", "fine", "good job", "I understand completely now"]` the code
returns `short_answers = 4`, not 3: the fourth answer has exactly 4
whitespace-separated words and the ≤ 4 rule includes it (as the spec's own
parenthetical concedes). -/
theorem detect_weak_concepts_scenario_cex :
    (detect_weak_concepts ["ok", "fine", "good job", "I understand completely now"]).short_answers = 4 ∧
    (detect_weak_concepts ["ok", "fine", "good job", "I understand completely now"]).short_answers ≠ 3 := by
  decide

/-- C8 (amended): `detect_weak_concepts` counts as `short_answers` exactly
the answers whose whitespace-split word count is at most 4; on the input
`["ok", "fine", "good job", "I understand completely now"]` it returns 4. -/
theorem detect_weak_concepts_short_count (answers : List String) :
    (detect_weak_concepts answers).short_answers
      = answers.countP (fun a => (pyWords a).length ≤ 4) ∧
    (detect_weak_concepts ["ok", "fine", "good job", "I understand completely now"]).short_answers = 4 := by
  refine ⟨?_, by decide⟩
  simp [detect_weak_concepts, List.countP_eq_length_filter]

/-! ### Rounding lemmas -/

theorem le_rheInt {α : Type} [LinearOrderedField α] [FloorRing α] (x : α) (n : ℤ)
    (h : (n : α) ≤ x) : n ≤ rheInt x := by
  have hf : n ≤ ⌊x⌋ := Int.le_floor.mpr h
  unfold rheInt
  split_ifs <;> omega

theorem rheInt_le {α : Type} [LinearOrderedField α] [FloorRing α] (x : α) (n : ℤ)
    (h : x ≤ (n : α)) : rheInt x ≤ n := by
  have hfl : ⌊x⌋ ≤ n := by
    have := Int.floor_le_floor h
    rwa [Int.floor_intCast] at this
  have key : ¬ Int.fract x < 1/2 → ⌊x⌋ + 1 ≤ n := by
    intro h1
    have hfr : (1 : α)/2 ≤ Int.fract x := not_lt.mp h1
    have hfr' : Int.fract x = x - ⌊x⌋ := rfl
    rw [hfr'] at hfr
    have hlt : (⌊x⌋ : α) < x := by linarith
    have hcast : (⌊x⌋ : α) < (n : α) := lt_of_lt_of_le hlt h
    have hint : ⌊x⌋ < n := by exact_mod_cast hcast
    omega
  unfold rheInt
  split_ifs with h1 h2 h3
  · exact hfl
  · exact key h1
  · exact hfl
  · exact key h1

theorem rheInt_intCast {α : Type} [LinearOrderedField α] [FloorRing α] (n : ℤ) :
    rheInt ((n : α)) = n := by
  unfold rheInt
  rw [Int.fract_intCast, Int.floor_intCast]
  norm_num

theorem round2_bounds {α : Type} [LinearOrderedField α] [FloorRing α] (x : α)
    (a b : ℤ) (h1 : (a : α) ≤ x) (h2 : x ≤ (b : α)) :
    (a : α) ≤ round2 x ∧ round2 x ≤ (b : α) := by
  have hl : (a * 100 : ℤ) ≤ rheInt (100 * x) := by
    apply le_rheInt
    have := mul_le_mul_of_nonneg_left h1 (show (0 : α) ≤ 100 by norm_num)
    push_cast
    linarith
  have hr : rheInt (100 * x) ≤ b * 100 := by
    apply rheInt_le
    have := mul_le_mul_of_nonneg_left h2 (show (0 : α) ≤ 100 by norm_num)
    push_cast
    linarith
  constructor
  · rw [round2, le_div_iff (show (0 : α) < 100 by norm_num)]
    calc (a : α) * 100 = ((a * 100 : ℤ) : α) := by push_cast; ring
    _ ≤ ((rheInt (100 * x) : ℤ) : α) := by exact_mod_cast hl
  · rw [round2, div_le_iff (show (0 : α) < 100 by norm_num)]
    calc ((rheInt (100 * x) : ℤ) : α) ≤ ((b * 100 : ℤ) : α) := by exact_mod_cast hr
    _ = (b : α) * 100 := by push_cast; ring

/-- C5: `calculate_scores` returns
`insight_score = round2(min(avg_similarity*40 + vocab*20 +
(1 - short/total)*20 + 20, 100))` (so at least 20) and
`confidence_score = min(100, total*10 + clusters*15)`; both lie in
[0, 100] under the signal preconditions. -/
theorem calculate_scores_spec (question : String) (ins : Insight)
    (clusters : List (List String)) (wk : WeakSignals)
    (hsim0 : 0 ≤ ins.avg_similarity) (hsim1 : ins.avg_similarity ≤ 1)
    (hshort : wk.short_answers ≤ ins.total_responses) :
    (calculate_scores question ins clusters wk).1
        = round2 (min (ins.avg_similarity * 40
            + (if wk.low_vocab_diversity then 0 else 1) * 20
            + (1 - (wk.short_answers : ℝ) / ins.total_responses) * 20 + 20) 100) ∧
      20 ≤ (calculate_scores question ins clusters wk).1 ∧
      (calculate_scores question ins clusters wk).1 ≤ 100 ∧
      (calculate_scores question ins clusters wk).2
        = min 100 (ins.total_responses * 10 + clusters.length * 15) ∧
      (calculate_scores question ins clusters wk).2 ≤ 100 := by
  have hv0 : (0 : ℝ) ≤ (if wk.low_vocab_diversity then (0 : ℝ) else 1) := by
    split <;> norm_num
  have hratio : (if ins.total_responses ≠ 0 then
        (wk.short_answers : ℝ) / ins.total_responses else 0)
        = (wk.short_answers : ℝ) / ins.total_responses ∧
      0 ≤ (wk.short_answers : ℝ) / ins.total_responses ∧
      (wk.short_answers : ℝ) / ins.total_responses ≤ 1 := by
    by_cases ht : ins.total_responses = 0
    · have hs0 : wk.short_answers = 0 := Nat.le_zero.mp (ht ▸ hshort)
      simp [ht, hs0]
    · have htpos : (0 : ℝ) < ins.total_responses := by
        exact_mod_cast Nat.pos_of_ne_zero ht
      refine ⟨by simp [ht], div_nonneg (by positivity) htpos.le, ?_⟩
      rw [div_le_one htpos]
      exact_mod_cast hshort
  obtain ⟨heq, hr0, hr1⟩ := hratio
  have hcode : (calculate_scores question ins clusters wk).1
      = round2 (min (ins.avg_similarity * 40
        + (if wk.low_vocab_diversity then (0 : ℝ) else 1) * 20
        + (1 - (wk.short_answers : ℝ) / ins.total_responses) * 20 + 20) 100) := by
    simp only [calculate_scores, heq]
  have hF20 : (20 : ℝ) ≤ ins.avg_similarity * 40
      + (if wk.low_vocab_diversity then (0 : ℝ) else 1) * 20
      + (1 - (wk.short_answers : ℝ) / ins.total_responses) * 20 + 20 := by
    linarith
  have hFmin : (20 : ℝ) ≤ min (ins.avg_similarity * 40
      + (if wk.low_vocab_diversity then (0 : ℝ) else 1) * 20
      + (1 - (wk.short_answers : ℝ) / ins.total_responses) * 20 + 20) 100 :=
    le_min hF20 (by norm_num)
  have hFmax : min (ins.avg_similarity * 40
      + (if wk.low_vocab_diversity then (0 : ℝ) else 1) * 20
      + (1 - (wk.short_answers : ℝ) / ins.total_responses) * 20 + 20) 100
      ≤ 100 := min_le_right _ _
  have hb := round2_bounds (α := ℝ) (min (ins.avg_similarity * 40
      + (if wk.low_vocab_diversity then (0 : ℝ) else 1) * 20
      + (1 - (wk.short_answers : ℝ) / ins.total_responses) * 20 + 20) 100)
    20 100 (by push_cast; exact hFmin) (by push_cast; exact hFmax)
  push_cast at hb
  refine ⟨hcode, ?_, ?_, ?_, ?_⟩
  · rw [hcode]
    exact hb.1
  · rw [hcode]
    exact hb.2
  · simp [calculate_scores]
  · simp only [calculate_scores]
    exact min_le_left _ _

theorem calculate_scores_spec_witness :
    20 ≤ (calculate_scores "q1" ⟨1, [], 0, [], "Easy", []⟩ [] ⟨0, false⟩).1 ∧
      (calculate_scores "q1" ⟨1, [], 0, [], "Easy", []⟩ [] ⟨0, false⟩).1 ≤ 100 :=
  ⟨(calculate_scores_spec "q1" ⟨1, [], 0, [], "Easy", []⟩ [] ⟨0, false⟩
      le_rfl zero_le_one (by decide)).2.1,
   (calculate_scores_spec "q1" ⟨1, [], 0, [], "Easy", []⟩ [] ⟨0, false⟩
      le_rfl zero_le_one (by decide)).2.2.1⟩

/-! ### TF-IDF / cosine similarity lemmas -/

theorem idf_one_le (answers : List String) (t : String) : 1 ≤ idf answers t := by
  unfold idf
  have hdf : (dfCount answers t : ℝ) ≤ (answers.length : ℝ) := by
    exact_mod_cast List.length_filter_le _ answers
  have hpos : (0 : ℝ) < 1 + (dfCount answers t : ℝ) := by positivity
  have h1 : (1 : ℝ) ≤ (1 + (answers.length : ℝ)) / (1 + (dfCount answers t : ℝ)) := by
    rw [one_le_div hpos]
    linarith
  have := Real.log_nonneg h1
  linarith

theorem tfidfWeight_nonneg (answers : List String) (d t : String) :
    0 ≤ tfidfWeight answers d t :=
  mul_nonneg (by positivity) (le_trans zero_le_one (idf_one_le answers t))

theorem dotW_nonneg (answers : List String) (d e : String) :
    0 ≤ dotW answers d e :=
  Finset.sum_nonneg (fun t _ =>
    mul_nonneg (tfidfWeight_nonneg answers d t) (tfidfWeight_nonneg answers e t))

theorem dotW_self_eq (answers : List String) (d : String) :
    dotW answers d d
      = ∑ t ∈ (vocab answers).toFinset, (tfidfWeight answers d t) ^ 2 := by
  unfold dotW
  apply Finset.sum_congr rfl
  intro t _
  ring

theorem cosSim_nonneg (answers : List String) (d e : String) :
    0 ≤ cosSim answers d e :=
  div_nonneg (dotW_nonneg answers d e)
    (mul_nonneg (Real.sqrt_nonneg _) (Real.sqrt_nonneg _))

theorem cosSim_le_one (answers : List String) (d e : String) :
    cosSim answers d e ≤ 1 := by
  unfold cosSim
  by_cases hz : Real.sqrt (dotW answers d d) * Real.sqrt (dotW answers e e) = 0
  · rw [hz, div_zero]
    norm_num
  · have hnn : 0 ≤ Real.sqrt (dotW answers d d) * Real.sqrt (dotW answers e e) :=
      mul_nonneg (Real.sqrt_nonneg _) (Real.sqrt_nonneg _)
    have hpos : 0 < Real.sqrt (dotW answers d d) * Real.sqrt (dotW answers e e) :=
      lt_of_le_of_ne hnn (Ne.symm hz)
    rw [div_le_one hpos]
    have hcs : (dotW answers d e) ^ 2 ≤ (dotW answers d d) * (dotW answers e e) := by
      rw [dotW_self_eq answers d, dotW_self_eq answers e]
      unfold dotW
      exact Finset.sum_mul_sq_le_sq_mul_sq _ _ _
    calc dotW answers d e ≤ |dotW answers d e| := le_abs_self _
    _ = Real.sqrt ((dotW answers d e) ^ 2) := (Real.sqrt_sq_eq_abs _).symm
    _ ≤ Real.sqrt ((dotW answers d d) * (dotW answers e e)) := Real.sqrt_le_sqrt hcs
    _ = Real.sqrt (dotW answers d d) * Real.sqrt (dotW answers e e) :=
      Real.sqrt_mul (dotW_nonneg answers d d) _

theorem cosSim_self (answers : List String) (d : String)
    (h : dotW answers d d ≠ 0) : cosSim answers d d = 1 := by
  unfold cosSim
  rw [Real.mul_self_sqrt (dotW_nonneg answers d d)]
  exact div_self h

theorem meanSim_nonneg (answers : List String) : 0 ≤ meanSim answers := by
  unfold meanSim
  apply div_nonneg
  · apply List.sum_nonneg
    intro x hx
    obtain ⟨d, _, rfl⟩ := List.mem_map.mp hx
    apply List.sum_nonneg
    intro y hy
    obtain ⟨e, _, rfl⟩ := List.mem_map.mp hy
    exact cosSim_nonneg answers d e
  · positivity

theorem meanSim_le_one (answers : List String) : meanSim answers ≤ 1 := by
  unfold meanSim
  by_cases hn : answers.length = 0
  · simp [hn]
  · have hlpos : 0 < answers.length := Nat.pos_of_ne_zero hn
    have hpos : (0 : ℝ) < (answers.length : ℝ) * (answers.length : ℝ) := by
      have : (0 : ℝ) < (answers.length : ℝ) := by exact_mod_cast hlpos
      positivity
    rw [div_le_one hpos]
    have hinner : ∀ x ∈ answers.map
        (fun d => (answers.map (fun e => cosSim answers d e)).sum),
        x ≤ (answers.length : ℝ) := by
      intro x hx
      obtain ⟨d, _, rfl⟩ := List.mem_map.mp hx
      have hb : ∀ y ∈ answers.map (fun e => cosSim answers d e), y ≤ (1 : ℝ) := by
        intro y hy
        obtain ⟨e, _, rfl⟩ := List.mem_map.mp hy
        exact cosSim_le_one answers d e
      have := List.sum_le_card_nsmul (answers.map (fun e => cosSim answers d e)) 1 hb
      rwa [List.length_map, nsmul_eq_mul, mul_one] at this
    have houter := List.sum_le_card_nsmul _ ((answers.length : ℝ)) hinner
    rwa [List.length_map, nsmul_eq_mul] at houter

theorem vocab_mem_termTokens (answers : List String) (t : String)
    (ht : t ∈ vocab answers) : ∃ a ∈ answers, t ∈ termTokens a := by
  unfold vocab at ht
  exact List.mem_flatMap.mp (List.mem_dedup.mp ht)

theorem dotW_self_pos (answers : List String) (d : String)
    (hv : vocab answers ≠ []) (hall : ∀ a ∈ answers, a = d) :
    0 < dotW answers d d := by
  obtain ⟨t, ht⟩ := List.exists_mem_of_ne_nil _ hv
  obtain ⟨a, ha, hta⟩ := vocab_mem_termTokens answers t ht
  rw [hall a ha] at hta
  have htf : 0 < tfCount d t := by
    unfold tfCount
    exact List.count_pos_iff.mpr hta
  have hw : 0 < tfidfWeight answers d t := by
    unfold tfidfWeight
    apply mul_pos
    · exact_mod_cast htf
    · exact lt_of_lt_of_le zero_lt_one (idf_one_le answers t)
  rw [dotW_self_eq]
  apply Finset.sum_pos'
  · intro i _
    exact sq_nonneg _
  · exact ⟨t, List.mem_toFinset.mpr ht, pow_pos hw 2⟩

theorem meanSim_identical (answers : List String) (d : String)
    (h2 : 2 ≤ answers.length) (hv : vocab answers ≠ [])
    (hall : ∀ a ∈ answers, a = d) : meanSim answers = 1 := by
  have hdot : dotW answers d d ≠ 0 := (dotW_self_pos answers d hv hall).ne'
  have hcs : ∀ a ∈ answers, ∀ b ∈ answers, cosSim answers a b = 1 := by
    intro a ha b hb
    rw [hall a ha, hall b hb]
    exact cosSim_self answers d hdot
  unfold meanSim
  have hinner : answers.map (fun a => (answers.map (fun e => cosSim answers a e)).sum)
      = answers.map (fun _ => (answers.length : ℝ)) := by
    apply List.map_congr_left
    intro a ha
    have hmc : answers.map (fun e => cosSim answers a e)
        = answers.map (fun _ => (1 : ℝ)) :=
      List.map_congr_left (fun e he => hcs a ha e he)
    rw [hmc, List.map_const', List.sum_replicate, nsmul_eq_mul, mul_one]
  rw [hinner, List.map_const', List.sum_replicate, nsmul_eq_mul]
  have hne : (answers.length : ℝ) ≠ 0 := by
    have : 0 < answers.length := lt_of_lt_of_le (by norm_num) h2
    exact_mod_cast this.ne'
  field_simp

theorem round2_intCast {α : Type} [LinearOrderedField α] [FloorRing α] (n : ℤ) :
    round2 ((n : α)) = (n : α) := by
  rw [round2]
  have h : (100 : α) * (n : α) = ((100 * n : ℤ) : α) := by
    push_cast
    ring
  rw [h, rheInt_intCast]
  push_cast
  field_simp

theorem round1_intCast {α : Type} [LinearOrderedField α] [FloorRing α] (n : ℤ) :
    round1 ((n : α)) = (n : α) := by
  rw [round1]
  have h : (10 : α) * (n : α) = ((10 * n : ℤ) : α) := by
    push_cast
    ring
  rw [h, rheInt_intCast]
  push_cast
  field_simp

/-- C7: the stored `avg_similarity` is the 2-decimal rounding of the mean
of the full pairwise cosine-similarity matrix of the TF-IDF vectors
(diagonal included), is exactly 0.0 for fewer than 2 answers, lies in
[0, 1] whenever the analysis is defined (vectorization succeeded), and
equals 1.0 for a set of 2 or more identical strings. -/
theorem analyze_similarity_spec (entries : List Entry) (ins : Insight)
    (hok : analyzeQuestion entries = .ok ins) :
    (ins.avg_similarity = round2 (if 1 < (entries.map (fun e => e.answer)).length
        then meanSim (entries.map (fun e => e.answer)) else 0)) ∧
    ((entries.map (fun e => e.answer)).length < 2 → ins.avg_similarity = 0) ∧
    (0 ≤ ins.avg_similarity ∧ ins.avg_similarity ≤ 1) ∧
    (2 ≤ (entries.map (fun e => e.answer)).length →
      (∀ a ∈ entries.map (fun e => e.answer),
        ∀ b ∈ entries.map (fun e => e.answer), a = b) →
      ins.avg_similarity = 1) := by
  unfold analyzeQuestion at hok
  by_cases hc : 1 < (entries.map (fun e => e.answer)).length
      ∧ vocab (entries.map (fun e => e.answer)) = []
  · rw [if_pos hc] at hok
    exact absurd hok (by simp)
  · rw [if_neg hc] at hok
    have h := Except.ok.inj hok
    subst h
    refine ⟨rfl, ?_, ?_, ?_⟩
    · intro hlt
      have hnot : ¬ 1 < (entries.map (fun e => e.answer)).length := by omega
      show round2 (if 1 < (entries.map (fun e => e.answer)).length
        then meanSim (entries.map (fun e => e.answer)) else 0) = 0
      rw [if_neg hnot]
      have h0 := round2_intCast (α := ℝ) 0
      simpa using h0
    · have hx0 : (0 : ℝ) ≤ (if 1 < (entries.map (fun e => e.answer)).length
          then meanSim (entries.map (fun e => e.answer)) else 0) := by
        split
        · exact meanSim_nonneg _
        · exact le_refl 0
      have hx1 : (if 1 < (entries.map (fun e => e.answer)).length
          then meanSim (entries.map (fun e => e.answer)) else 0) ≤ 1 := by
        split
        · exact meanSim_le_one _
        · exact zero_le_one
      have hb := round2_bounds (α := ℝ)
        (if 1 < (entries.map (fun e => e.answer)).length
          then meanSim (entries.map (fun e => e.answer)) else 0) 0 1
        (by push_cast; exact hx0) (by push_cast; exact hx1)
      push_cast at hb
      exact hb
    · intro h2 hall
      have hne : entries.map (fun e => e.answer) ≠ [] := by
        intro h
        rw [h] at h2
        simp at h2
      obtain ⟨d, hd⟩ := List.exists_mem_of_ne_nil _ hne
      have hall' : ∀ a ∈ entries.map (fun e => e.answer), a = d :=
        fun a ha => hall a ha d hd
      have hv : vocab (entries.map (fun e => e.answer)) ≠ [] :=
        fun hveq => hc ⟨by omega, hveq⟩
      show round2 (if 1 < (entries.map (fun e => e.answer)).length
        then meanSim (entries.map (fun e => e.answer)) else 0) = 1
      rw [if_pos (by omega : 1 < (entries.map (fun e => e.answer)).length),
        meanSim_identical _ d h2 hv hall']
      have h1 := round2_intCast (α := ℝ) 1
      simpa using h1

theorem analyze_similarity_spec_witness :
    ∃ ins, analyzeQuestion [⟨"s1", "Ann", "cat"⟩, ⟨"s2", "Bo", "cat"⟩] = .ok ins ∧
      ins.avg_similarity = 1 := by
  refine ⟨_, rfl, ?_⟩
  exact (analyze_similarity_spec [⟨"s1", "Ann", "cat"⟩, ⟨"s2", "Bo", "cat"⟩]
    _ rfl).2.2.2 (by decide) (by decide)

/-- C1 (code bug evidence): on the spec-enumerated "no-vocabulary" shape
(two answers made only of stop words) the insight synthesizer
`analyze_grouped_answers` vectorizes UNGUARDED and the empty-vocabulary
`ValueError` propagates out of it (modelled as `Except.error`), while the
clustering engine catches the same failure and returns its single-cluster
fallback. -/
theorem analyze_raises_on_stopword_only :
    analyze_grouped_answers [("q1", [⟨"s1", "Ann", "the"⟩, ⟨"s2", "Bo", "of the"⟩])]
      = .error () ∧
    cluster_answers constantLabels ["the", "of the"] 5 = [["the", "of the"]] := by
  constructor
  · rfl
  · decide

/-! ### Storage / override theorems -/

/-- C3 (code bug evidence): after a successful `save_feedback`, the
session still points at the old analysis id, under which the ORIGINAL
run data (original `teaching_action`) is still stored; the overridden
data was written under the discarded fresh id.  Re-reading the run by
its analysis id — what the export and transparency endpoints do —
therefore yields the original `teaching_action`, not the override. -/
theorem save_feedback_override_lost (fresh : ℕ) (store : List (ℕ × RunData))
    (sess : Session) (analysis_id : ℕ) (data : RunData) (qid fb : String)
    (hsess : sess.analysis_id = some analysis_id)
    (hload : load_analysis_from_file store analysis_id = some data)
    (hfresh : fresh ∉ store.map (fun p => p.1))
    (hq : qid ≠ "") (hf : fb ≠ "") :
    (save_feedback fresh store sess qid fb).2.1 = sess ∧
    (save_feedback fresh store sess qid fb).2.2 = true ∧
    load_analysis_from_file (save_feedback fresh store sess qid fb).1 analysis_id
      = some data ∧
    load_analysis_from_file (save_feedback fresh store sess qid fb).1 fresh
      = some (setTeachingAction data qid fb) := by
  obtain ⟨p, hp, hpd⟩ : ∃ p, store.find? (fun q => q.1 = analysis_id) = some p
      ∧ p.2 = data := by
    unfold load_analysis_from_file at hload
    cases hfind : store.find? (fun q => q.1 = analysis_id) with
    | none =>
      rw [hfind] at hload
      simp at hload
    | some p =>
      rw [hfind] at hload
      simp at hload
      exact ⟨p, rfl, hload⟩
  have hppred : p.1 = analysis_id := by
    have := List.find?_some hp
    simpa using this
  have hne : ¬ (fresh = analysis_id) := by
    intro h
    apply hfresh
    rw [h, ← hppred]
    exact List.mem_map.mpr ⟨p, List.mem_of_find?_eq_some hp, rfl⟩
  have hsf : save_feedback fresh store sess qid fb
      = ((fresh, setTeachingAction data qid fb) :: store, sess, true) := by
    unfold save_feedback
    rw [hsess, Option.elim_some, hload, Option.elim_some, if_pos ⟨hq, hf⟩]
    rfl
  rw [hsf]
  refine ⟨rfl, rfl, ?_, ?_⟩
  · unfold load_analysis_from_file
    rw [List.find?_cons_of_neg _ (by simpa using hne)]
    exact hload
  · unfold load_analysis_from_file
    rw [List.find?_cons_of_pos _ (by simp)]
    rfl

theorem save_feedback_override_lost_witness :
    (save_feedback 1 [(0, ⟨[("q1", "orig")]⟩)] ⟨some 0⟩ "q1" "override").2.1
      = ⟨some 0⟩ ∧
    (save_feedback 1 [(0, ⟨[("q1", "orig")]⟩)] ⟨some 0⟩ "q1" "override").2.2
      = true ∧
    load_analysis_from_file
      (save_feedback 1 [(0, ⟨[("q1", "orig")]⟩)] ⟨some 0⟩ "q1" "override").1 0
      = some ⟨[("q1", "orig")]⟩ ∧
    load_analysis_from_file
      (save_feedback 1 [(0, ⟨[("q1", "orig")]⟩)] ⟨some 0⟩ "q1" "override").1 1
      = some (setTeachingAction ⟨[("q1", "orig")]⟩ "q1" "override") :=
  save_feedback_override_lost 1 [(0, ⟨[("q1", "orig")]⟩)] ⟨some 0⟩ 0
    ⟨[("q1", "orig")]⟩ "q1" "override" rfl (by decide) (by decide)
    (by decide) (by decide)

/-! ### Student classification theorems -/

theorem student_row_id (grouped : List (String × List Entry))
    (freq : String → List String) (sid : String) :
    (student_row grouped freq sid).student_id = sid := rfl

theorem student_row_avg (grouped : List (String × List Entry))
    (freq : String → List String) (sid : String) :
    (student_row grouped freq sid).avg_score
      = round1 (student_avg grouped freq sid) := rfl

/-- C9 (counterexample): when a question has NO frequent answers, the
source skips the uniqueness bonus entirely (it sits inside
`if insights[question]["frequent_answers"]:`), so a lone 10-word answer
scores 30, not 30 + 20 = 50, and the student is classified average,
not strong. -/
theorem identify_students_no_freq_bonus_cex :
    answer_score [] "a1 a2 a3 a4 a5 a6 a7 a8 a9 a10" = 30 ∧
    answer_score [] "a1 a2 a3 a4 a5 a6 a7 a8 a9 a10" ≠ 30 + 20 ∧
    (identify_strong_weak_students
        [("q1", [⟨"s1", "Ann", "a1 a2 a3 a4 a5 a6 a7 a8 a9 a10"⟩])]
        (fun _ => [])).strong = [] ∧
    (identify_strong_weak_students
        [("q1", [⟨"s1", "Ann", "a1 a2 a3 a4 a5 a6 a7 a8 a9 a10"⟩])]
        (fun _ => [])).average = [⟨"s1", "Ann", 30, 10⟩] := by
  have hsl : student_score_list
      [("q1", [⟨"s1", "Ann", "a1 a2 a3 a4 a5 a6 a7 a8 a9 a10"⟩])]
      (fun _ => []) "s1" = [30] := by decide
  have hll : student_length_list
      [("q1", [⟨"s1", "Ann", "a1 a2 a3 a4 a5 a6 a7 a8 a9 a10"⟩])] "s1"
      = [10] := by decide
  have hname : student_name_of
      [("q1", [⟨"s1", "Ann", "a1 a2 a3 a4 a5 a6 a7 a8 a9 a10"⟩])] "s1"
      = "Ann" := by decide
  have hsids : firstDedup ((studentPairs
      [("q1", [⟨"s1", "Ann", "a1 a2 a3 a4 a5 a6 a7 a8 a9 a10"⟩])]).map
      (fun p => p.2.student_id)) = ["s1"] := by decide
  have havg : student_avg
      [("q1", [⟨"s1", "Ann", "a1 a2 a3 a4 a5 a6 a7 a8 a9 a10"⟩])]
      (fun _ => []) "s1" = 30 := by
    rw [student_avg, hsl]
    norm_num
  have h30 : round1 ((30 : ℚ)) = 30 := by simpa using round1_intCast (α := ℚ) 30
  have h10 : round1 ((10 : ℚ)) = 10 := by simpa using round1_intCast (α := ℚ) 10
  have hrow : student_row
      [("q1", [⟨"s1", "Ann", "a1 a2 a3 a4 a5 a6 a7 a8 a9 a10"⟩])]
      (fun _ => []) "s1" = ⟨"s1", "Ann", 30, 10⟩ := by
    rw [student_row, havg, hll, hname]
    norm_num [h30, h10]
  have hstrong : (identify_strong_weak_students
      [("q1", [⟨"s1", "Ann", "a1 a2 a3 a4 a5 a6 a7 a8 a9 a10"⟩])]
      (fun _ => [])).strong = [] := by
    simp only [identify_strong_weak_students, hsids]
    have hc : ¬ (40 ≤ student_avg
        [("q1", [⟨"s1", "Ann", "a1 a2 a3 a4 a5 a6 a7 a8 a9 a10"⟩])]
        (fun _ => []) "s1") := by
      rw [havg]
      decide
    simp [List.filter_cons, hc, List.insertionSort]
  have haverage : (identify_strong_weak_students
      [("q1", [⟨"s1", "Ann", "a1 a2 a3 a4 a5 a6 a7 a8 a9 a10"⟩])]
      (fun _ => [])).average = [⟨"s1", "Ann", 30, 10⟩] := by
    simp only [identify_strong_weak_students, hsids]
    have hc1 : student_avg
        [("q1", [⟨"s1", "Ann", "a1 a2 a3 a4 a5 a6 a7 a8 a9 a10"⟩])]
        (fun _ => []) "s1" < 40 := by
      rw [havg]
      decide
    have hc2 : (20 : ℚ) < student_avg
        [("q1", [⟨"s1", "Ann", "a1 a2 a3 a4 a5 a6 a7 a8 a9 a10"⟩])]
        (fun _ => []) "s1" := by
      rw [havg]
      decide
    simp [List.filter_cons, hc1, hc2, hrow, List.insertionSort, List.orderedInsert]
  exact ⟨by decide, by decide, hstrong, haverage⟩

/-- C9 (amended): the per-answer score is the length-tier bonus (≥10
words +30, ≥5 +20, else +5, with −10 when ≤4 words) plus a +20 bonus
exactly when the question's frequent-answer list is NON-EMPTY and the
answer is not in it (no bonus at all for questions without frequent
answers); a student's unrounded average ≥40 classifies strong, ≤20 weak,
otherwise average; strong and weak are capped at 10, average is not. -/
theorem identify_students_spec (grouped : List (String × List Entry))
    (freq : String → List String) :
    (∀ fa a, answer_score fa a
        = ((if 10 ≤ (pyWords a).length then 30
            else if 5 ≤ (pyWords a).length then 20 else (5 : ℤ))
          - (if (pyWords a).length ≤ 4 then 10 else 0)
          + (if fa ≠ [] ∧ a ∉ fa then 20 else 0))) ∧
    (identify_strong_weak_students grouped freq).strong.length ≤ 10 ∧
    (identify_strong_weak_students grouped freq).weak.length ≤ 10 ∧
    (∀ s ∈ (identify_strong_weak_students grouped freq).strong,
      40 ≤ student_avg grouped freq s.student_id ∧
        s.avg_score = round1 (student_avg grouped freq s.student_id)) ∧
    (∀ s ∈ (identify_strong_weak_students grouped freq).weak,
      student_avg grouped freq s.student_id ≤ 20 ∧
        s.avg_score = round1 (student_avg grouped freq s.student_id)) ∧
    (∀ s ∈ (identify_strong_weak_students grouped freq).average,
      20 < student_avg grouped freq s.student_id ∧
        student_avg grouped freq s.student_id < 40) ∧
    (∀ sid ∈ firstDedup ((studentPairs grouped).map (fun p => p.2.student_id)),
      20 < student_avg grouped freq sid → student_avg grouped freq sid < 40 →
      student_row grouped freq sid
        ∈ (identify_strong_weak_students grouped freq).average) := by
  refine ⟨?_, ?_, ?_, ?_, ?_, ?_, ?_⟩
  · intro fa a
    simp only [answer_score]
    split_ifs <;> omega
  · simp only [identify_strong_weak_students, List.length_take]
    exact min_le_left _ _
  · simp only [identify_strong_weak_students, List.length_take]
    exact min_le_left _ _
  · intro s hs
    simp only [identify_strong_weak_students] at hs
    have hs1 := List.mem_of_mem_take hs
    rw [List.mem_insertionSort] at hs1
    obtain ⟨sid, hsid, rfl⟩ := List.mem_map.mp hs1
    have hcond := (List.mem_filter.mp hsid).2
    simp only [decide_eq_true_eq] at hcond
    rw [student_row_id, student_row_avg]
    exact ⟨hcond, rfl⟩
  · intro s hs
    simp only [identify_strong_weak_students] at hs
    have hs1 := List.mem_of_mem_take hs
    rw [List.mem_insertionSort] at hs1
    obtain ⟨sid, hsid, rfl⟩ := List.mem_map.mp hs1
    have hcond := (List.mem_filter.mp hsid).2
    simp only [decide_eq_true_eq] at hcond
    rw [student_row_id, student_row_avg]
    exact ⟨hcond.2, rfl⟩
  · intro s hs
    simp only [identify_strong_weak_students] at hs
    rw [List.mem_insertionSort] at hs
    obtain ⟨sid, hsid, rfl⟩ := List.mem_map.mp hs
    have hcond := (List.mem_filter.mp hsid).2
    simp only [decide_eq_true_eq] at hcond
    rw [student_row_id]
    exact ⟨not_le.mp hcond.2, not_le.mp hcond.1⟩
  · intro sid hsid h20 h40
    simp only [identify_strong_weak_students]
    rw [List.mem_insertionSort]
    apply List.mem_map.mpr
    refine ⟨sid, ?_, rfl⟩
    apply List.mem_filter.mpr
    refine ⟨hsid, ?_⟩
    simp only [decide_eq_true_eq]
    exact ⟨not_le.mpr h40, not_le.mpr h20⟩

theorem identify_students_spec_witness :
    (⟨"s1", "Ann", 50, 10⟩ : StudentRow) ∈ (identify_strong_weak_students
        [("q1", [⟨"s1", "Ann", "a1 a2 a3 a4 a5 a6 a7 a8 a9 a10"⟩])]
        (fun _ => ["zz"])).strong ∧
    40 ≤ student_avg [("q1", [⟨"s1", "Ann", "a1 a2 a3 a4 a5 a6 a7 a8 a9 a10"⟩])]
      (fun _ => ["zz"]) "s1" := by
  have hsl : student_score_list
      [("q1", [⟨"s1", "Ann", "a1 a2 a3 a4 a5 a6 a7 a8 a9 a10"⟩])]
      (fun _ => ["zz"]) "s1" = [50] := by decide
  have hll : student_length_list
      [("q1", [⟨"s1", "Ann", "a1 a2 a3 a4 a5 a6 a7 a8 a9 a10"⟩])] "s1"
      = [10] := by decide
  have hname : student_name_of
      [("q1", [⟨"s1", "Ann", "a1 a2 a3 a4 a5 a6 a7 a8 a9 a10"⟩])] "s1"
      = "Ann" := by decide
  have hsids : firstDedup ((studentPairs
      [("q1", [⟨"s1", "Ann", "a1 a2 a3 a4 a5 a6 a7 a8 a9 a10"⟩])]).map
      (fun p => p.2.student_id)) = ["s1"] := by decide
  have havg : student_avg
      [("q1", [⟨"s1", "Ann", "a1 a2 a3 a4 a5 a6 a7 a8 a9 a10"⟩])]
      (fun _ => ["zz"]) "s1" = 50 := by
    rw [student_avg, hsl]
    norm_num
  have h50 : round1 ((50 : ℚ)) = 50 := by simpa using round1_intCast (α := ℚ) 50
  have h10 : round1 ((10 : ℚ)) = 10 := by simpa using round1_intCast (α := ℚ) 10
  have hrow : student_row
      [("q1", [⟨"s1", "Ann", "a1 a2 a3 a4 a5 a6 a7 a8 a9 a10"⟩])]
      (fun _ => ["zz"]) "s1" = ⟨"s1", "Ann", 50, 10⟩ := by
    rw [student_row, havg, hll, hname]
    norm_num [h50, h10]
  have hmem : (⟨"s1", "Ann", 50, 10⟩ : StudentRow) ∈ (identify_strong_weak_students
      [("q1", [⟨"s1", "Ann", "a1 a2 a3 a4 a5 a6 a7 a8 a9 a10"⟩])]
      (fun _ => ["zz"])).strong := by
    simp only [identify_strong_weak_students, hsids]
    have hc : 40 ≤ student_avg
        [("q1", [⟨"s1", "Ann", "a1 a2 a3 a4 a5 a6 a7 a8 a9 a10"⟩])]
        (fun _ => ["zz"]) "s1" := by
      rw [havg]
      decide
    simp [List.filter_cons, hc, hrow, List.insertionSort, List.orderedInsert]
  exact ⟨hmem, ((identify_students_spec
    [("q1", [⟨"s1", "Ann", "a1 a2 a3 a4 a5 a6 a7 a8 a9 a10"⟩])]
    (fun _ => ["zz"])).2.2.2.1 ⟨"s1", "Ann", 50, 10⟩ hmem).1⟩

/-! ### Transparency report theorems -/

theorem explain_cluster_selection_percentage (cluster all_answers : List String) :
    (explain_cluster_selection cluster all_answers).class_percentage
      = if 0 < all_answers.length then
          round1 ((cluster.length : ℚ) / (all_answers.length : ℚ) * 100)
        else 0 := rfl

theorem sum_percentages_eq (clusters : List (List String)) (D : ℚ) :
    (clusters.map (fun c => (c.length : ℚ) / D * 100)).sum
      = ((clusters.flatten.length : ℚ)) / D * 100 := by
  induction clusters with
  | nil => simp
  | cons c l ih =>
    simp only [List.map_cons, List.sum_cons, List.flatten_cons,
      List.length_append, ih]
    push_cast
    ring

set_option maxRecDepth 10000 in
/-- C10 (counterexample): with one frequent answer and five clusters of
sizes 79, 79, 79, 79, 83 (399 answers, denominator 400), every exact
share ends in .75, rounds UP to the even tenth (19.75→19.8, 20.75→20.8),
and the reported `class_percentage` values sum to exactly 100 — not
strictly less than 100 as claimed. -/
theorem transparency_percentage_sum_cex :
    ((transparency_cluster_explanations ⟨399, [], 0, ["dup"], "Easy", []⟩
        [List.replicate 79 "a", List.replicate 79 "b", List.replicate 79 "c",
          List.replicate 79 "d", List.replicate 83 "e"]).map
      (fun ce => ce.class_percentage)).sum = 100 ∧
    ¬ (((transparency_cluster_explanations ⟨399, [], 0, ["dup"], "Easy", []⟩
        [List.replicate 79 "a", List.replicate 79 "b", List.replicate 79 "c",
          List.replicate 79 "d", List.replicate 83 "e"]).map
      (fun ce => ce.class_percentage)).sum < 100) := by
  have hfl79 : (⌊(395 : ℚ)/2⌋ : ℤ) = 197 := by norm_num
  have hfr79 : Int.fract ((395 : ℚ)/2) = 1/2 := by norm_num [Int.fract]
  have hp79 : round1 ((79 : ℚ)/400 * 100) = 99/5 := by
    have hx : (10 : ℚ) * ((79 : ℚ)/400 * 100) = 395/2 := by norm_num
    rw [round1, hx, rheInt, hfr79, hfl79]
    norm_num
  have hfl83 : (⌊(415 : ℚ)/2⌋ : ℤ) = 207 := by norm_num
  have hfr83 : Int.fract ((415 : ℚ)/2) = 1/2 := by norm_num [Int.fract]
  have hp83 : round1 ((83 : ℚ)/400 * 100) = 104/5 := by
    have hx : (10 : ℚ) * ((83 : ℚ)/400 * 100) = 415/2 := by norm_num
    rw [round1, hx, rheInt, hfr83, hfl83]
    norm_num
  have hA : ((Insight.mk 399 [] 0 ["dup"] "Easy" []).frequent_answers
      ++ ([List.replicate 79 "a", List.replicate 79 "b", List.replicate 79 "c",
        List.replicate 79 "d", List.replicate 83 "e"]).flatten).length = 400 := by
    decide
  have hperc79 : ∀ c : List String, c.length = 79 →
      (explain_cluster_selection c
        ((Insight.mk 399 [] 0 ["dup"] "Easy" []).frequent_answers
          ++ ([List.replicate 79 "a", List.replicate 79 "b", List.replicate 79 "c",
            List.replicate 79 "d", List.replicate 83 "e"]).flatten)).class_percentage
        = 99/5 := by
    intro c hc
    rw [explain_cluster_selection_percentage, hA, hc,
      if_pos (by norm_num : (0 : ℕ) < 400)]
    have hcast1 : ((79 : ℕ) : ℚ) = 79 := by norm_num
    have hcast2 : ((400 : ℕ) : ℚ) = 400 := by norm_num
    rw [hcast1, hcast2]
    exact hp79
  have hperc83 : ∀ c : List String, c.length = 83 →
      (explain_cluster_selection c
        ((Insight.mk 399 [] 0 ["dup"] "Easy" []).frequent_answers
          ++ ([List.replicate 79 "a", List.replicate 79 "b", List.replicate 79 "c",
            List.replicate 79 "d", List.replicate 83 "e"]).flatten)).class_percentage
        = 104/5 := by
    intro c hc
    rw [explain_cluster_selection_percentage, hA, hc,
      if_pos (by norm_num : (0 : ℕ) < 400)]
    have hcast1 : ((83 : ℕ) : ℚ) = 83 := by norm_num
    have hcast2 : ((400 : ℕ) : ℚ) = 400 := by norm_num
    rw [hcast1, hcast2]
    exact hp83
  have hmap : (transparency_cluster_explanations
      (Insight.mk 399 [] 0 ["dup"] "Easy" [])
      [List.replicate 79 "a", List.replicate 79 "b", List.replicate 79 "c",
        List.replicate 79 "d", List.replicate 83 "e"]).map
      (fun ce => ce.class_percentage)
      = [99/5, 99/5, 99/5, 99/5, 104/5] := by
    simp only [transparency_cluster_explanations, List.map_map, List.map_cons,
      List.map_nil, Function.comp]
    rw [hperc79 (List.replicate 79 "a") (by decide),
      hperc79 (List.replicate 79 "b") (by decide),
      hperc79 (List.replicate 79 "c") (by decide),
      hperc79 (List.replicate 79 "d") (by decide),
      hperc83 (List.replicate 83 "e") (by decide)]
  constructor
  · rw [hmap]
    norm_num
  · rw [hmap]
    norm_num

/-- C10 (amended): each cluster's `class_percentage` is computed with
denominator `len(frequent_answers) + total answers across all clusters` —
not the question's `total_responses` — rounded to 1 decimal; whenever
`frequent_answers` is non-empty the UNROUNDED shares sum to strictly less
than 100 (rounding can lift the reported sum to 100 or more). -/
theorem transparency_percentage_denominator (ins : Insight)
    (clusters : List (List String)) (hfa : ins.frequent_answers ≠ []) :
    ((transparency_cluster_explanations ins clusters).map
        (fun ce => ce.class_percentage))
      = clusters.map (fun c => round1 ((c.length : ℚ)
          / ((ins.frequent_answers.length + clusters.flatten.length : ℕ) : ℚ)
          * 100)) ∧
    (clusters.map (fun c => (c.length : ℚ)
        / ((ins.frequent_answers.length + clusters.flatten.length : ℕ) : ℚ)
        * 100)).sum < 100 := by
  have hF : 0 < ins.frequent_answers.length := List.length_pos.mpr hfa
  have hDpos : (0 : ℚ)
      < ((ins.frequent_answers.length + clusters.flatten.length : ℕ) : ℚ) := by
    exact_mod_cast Nat.lt_of_lt_of_le hF (Nat.le_add_right _ _)
  constructor
  · unfold transparency_cluster_explanations
    rw [List.map_map]
    apply List.map_congr_left
    intro c _
    show (explain_cluster_selection c
      (ins.frequent_answers ++ clusters.flatten)).class_percentage = _
    rw [explain_cluster_selection_percentage]
    have hlen : (ins.frequent_answers ++ clusters.flatten).length
        = ins.frequent_answers.length + clusters.flatten.length :=
      List.length_append _ _
    have hpos : 0 < (ins.frequent_answers ++ clusters.flatten).length := by
      rw [hlen]
      omega
    rw [if_pos hpos, hlen]
  · rw [sum_percentages_eq]
    have hTD : ((clusters.flatten.length : ℚ))
        < ((ins.frequent_answers.length + clusters.flatten.length : ℕ) : ℚ) := by
      exact_mod_cast Nat.lt_add_of_pos_left hF
    have h1 := (div_lt_one hDpos).mpr hTD
    linarith

theorem transparency_percentage_denominator_witness :
    ((Insight.mk 2 [] 0 ["x"] "Easy" []).frequent_answers ≠ []) ∧
    ((transparency_cluster_explanations (Insight.mk 2 [] 0 ["x"] "Easy" [])
        [["a"], ["b"]]).map (fun ce => ce.class_percentage)
      = ([["a"], ["b"]] : List (List String)).map (fun c =>
          round1 ((c.length : ℚ)
            / (((Insight.mk 2 [] 0 ["x"] "Easy" []).frequent_answers.length
              + ([["a"], ["b"]] : List (List String)).flatten.length : ℕ) : ℚ)
            * 100))) :=
  ⟨by decide, (transparency_percentage_denominator
    (Insight.mk 2 [] 0 ["x"] "Easy" []) [["a"], ["b"]] (by decide)).1⟩
